import Mathlib

/-!
Verification of the sbom-utility validation and resource-listing core.

The Go sources under verification are src/schema/cyclonedx_marshal.go
(custom JSON marshalers for the CycloneDX license "choice" types) and
src/cmd/validate.go (the Validate orchestration pipeline and the
resource list renderers).  Pure Go functions are translated to Lean
functions; collaborators that live outside the verified sources
(file loading, the gojsonschema library, the embedded schema store,
the resource hashing walkers) are modelled by explicit environment
records holding their outcomes, and the side effects the claims talk
about (embedded schema reads, schema compile attempts, evaluation) are
recorded as an explicit event trace.
-/

/- ===================================================================
   Section 1: CycloneDX data types and custom marshalers
   (src/schema/cyclonedx_marshal.go)
   =================================================================== -/

/-- CycloneDX attachment: Go struct CDXAttachment with string fields
ContentType, Encoding, Content (Go zero value: all empty strings). -/
structure CDXAttachment where
  contentType : String
  encoding : String
  content : String
deriving DecidableEq, Repr

/-- The Go zero value of CDXAttachment, written CDXAttachment\x7b\x7d in the source. -/
def CDXAttachment.zero : CDXAttachment := ⟨"", "", ""⟩

/-- CycloneDX license: Go struct CDXLicense with fields Id, Name, Url and
an embedded CDXAttachment named Text. -/
structure CDXLicense where
  id : String
  name : String
  url : String
  text : CDXAttachment
deriving DecidableEq, Repr

/-- The Go zero value of CDXLicense. -/
def CDXLicense.zero : CDXLicense := ⟨"", "", "", CDXAttachment.zero⟩

/-- CycloneDX license choice: Go struct CDXLicenseChoice with an embedded
CDXLicense field License and a string field Expression. -/
structure CDXLicenseChoice where
  license : CDXLicense
  expression : String
deriving DecidableEq, Repr

/-- Minimal JSON value model: the marshalers only ever emit string values
and nested objects, so those two constructors suffice.  An object is the
key-value map the Go code builds (map of string to interface value). -/
inductive JsonValue
| str (s : String)
| obj (fields : List (String × JsonValue))
deriving Repr

/-- Map built by CDXAttachment.MarshalJSON (cyclonedx_marshal.go lines
93-108): include each of contentType, encoding, content only when the
field is a non-empty string. -/
def CDXAttachment.marshalJSONMap (value : CDXAttachment) : List (String × JsonValue) :=
  (if value.contentType ≠ "" then [("contentType", JsonValue.str value.contentType)] else []) ++
  (if value.encoding ≠ "" then [("encoding", JsonValue.str value.encoding)] else []) ++
  (if value.content ≠ "" then [("content", JsonValue.str value.content)] else [])

/-- Go method (value CDXAttachment) MarshalJSON.  The Go body returns
json.Marshal of the map above; marshaling a map whose values are plain
strings cannot fail, so the error result is always nil, modelled by
Except.ok. -/
def CDXAttachment.MarshalJSON (value : CDXAttachment) : Except String (List (String × JsonValue)) :=
  .ok value.marshalJSONMap

/-- Map built by CDXLicense.MarshalJSON (cyclonedx_marshal.go lines
57-90): include id, name, url when non-empty; when the Text attachment is
not the zero value, marshal it recursively and include it under key
text. -/
def CDXLicense.marshalJSONMap (value : CDXLicense) : List (String × JsonValue) :=
  (if value.id ≠ "" then [("id", JsonValue.str value.id)] else []) ++
  (if value.name ≠ "" then [("name", JsonValue.str value.name)] else []) ++
  (if value.url ≠ "" then [("url", JsonValue.str value.url)] else []) ++
  (if value.text ≠ CDXAttachment.zero then
    [("text", JsonValue.obj value.text.marshalJSONMap)] else [])

/-- Go method (value CDXLicense) MarshalJSON; as for attachments, the
recursive json.Marshal and json.Unmarshal round trip on these value
shapes cannot fail, so the error result is always nil. -/
def CDXLicense.MarshalJSON (value : CDXLicense) : Except String (List (String × JsonValue)) :=
  .ok value.marshalJSONMap

/-- Map built by CDXLicenseChoice.MarshalJSON (cyclonedx_marshal.go lines
29-54): include expression when non-empty; when the License field is not
the zero CDXLicense, marshal it (via its own MarshalJSON, then unmarshal
into a map) and include that map under key license. -/
def CDXLicenseChoice.marshalJSONMap (value : CDXLicenseChoice) : List (String × JsonValue) :=
  (if value.expression ≠ "" then [("expression", JsonValue.str value.expression)] else []) ++
  (if value.license ≠ CDXLicense.zero then
    [("license", JsonValue.obj value.license.marshalJSONMap)] else [])

/-- Go method (value CDXLicenseChoice) MarshalJSON; the error result is
always nil for these value shapes. -/
def CDXLicenseChoice.MarshalJSON (value : CDXLicenseChoice) : Except String (List (String × JsonValue)) :=
  .ok value.marshalJSONMap

/-- Read a string-valued key out of a marshaled JSON object; a missing
key yields the Go zero value (empty string).  Models what
encoding/json Unmarshal does when decoding the object back into a
CDXAttachment struct. -/
def lookupStr (m : List (String × JsonValue)) (k : String) : String :=
  match m.lookup k with
  | some (JsonValue.str s) => s
  | _ => ""

/-- Decode a marshaled JSON object back into a CDXAttachment, as
encoding/json Unmarshal would: absent fields keep their zero value. -/
def parseAttachment (m : List (String × JsonValue)) : CDXAttachment :=
  { contentType := lookupStr m "contentType"
    encoding := lookupStr m "encoding"
    content := lookupStr m "content" }

/- ===================================================================
   Section 2: Go string ordering
   =================================================================== -/

/-- Lexicographic strict order on character lists.  Go compares strings
byte-lexicographically on their UTF-8 encoding; UTF-8 byte order agrees
with code-point order, so comparing the decoded characters is a faithful
model of the Go comparison. -/
def charListLt : List Char → List Char → Bool
  | [], [] => false
  | [], _ :: _ => true
  | _ :: _, [] => false
  | a :: as, b :: bs =>
    if a < b then true
    else if b < a then false
    else charListLt as bs

/-- Go string less-than, modelled on the underlying character list. -/
def strLt (a b : String) : Bool :=
  charListLt a.data b.data

/- ===================================================================
   Section 3: Resource listing and renderers (src/cmd/validate.go,
   resource listing half)
   =================================================================== -/

/-- Resource record hashed per component or service: Go struct
CDXResourceInfo, of which the renderers use the fields Type, Name,
Version, BOMRef (the Go field Type is renamed resourceType because
Type is a reserved word in Lean). -/
structure CDXResourceInfo where
  resourceType : String
  name : String
  version : String
  bomRef : String
deriving DecidableEq, Repr

/-- BOM document as the resource listing half of validate.go sees it:
format information plus the insertion-ordered ResourceMap.  The ordered
map is modelled by its Entries() slice, a list of key and
CDXResourceInfo value pairs (the Go values are interface values that
are always cast to CDXResourceInfo). -/
structure BOM where
  filename : String
  formatIsCycloneDx : Bool
  formatCanonicalName : String
  resourceMap : List (String × CDXResourceInfo)
deriving DecidableEq, Repr

/-- Source constant MSG_OUTPUT_NO_RESOURCES_FOUND (validate.go line 433). -/
def MSG_OUTPUT_NO_RESOURCES_FOUND : String := "[WARN] no matching resources found for query"

/-- Source constant RESOURCE_LIST_TITLES (validate.go lines 419-424). -/
def RESOURCE_LIST_TITLES : List String := ["type", "name", "version", "bom-ref"]

/-- Comparison closure passed to sort.Slice by all three renderers
(validate.go lines 651-659, 703-711, 758-766): order by Type first,
then by Name. -/
def resourceInfoLess (r1 r2 : CDXResourceInfo) : Bool :=
  if r1.resourceType ≠ r2.resourceType then
    strLt r1.resourceType r2.resourceType
  else
    strLt r1.name r2.name

/-- The sorting step shared by the renderers: Go sort.Slice with the
comparison above.  sort.Slice guarantees exactly that the result is a
permutation of the input ordered by the comparison (it is not stable);
mergeSort with the complementary non-strict order realizes the same
guarantee. -/
def sortResourceEntries (entries : List (String × CDXResourceInfo)) : List (String × CDXResourceInfo) :=
  entries.mergeSort (fun e1 e2 => !(resourceInfoLess e2.2 e1.2))

/-- Modelled from the spec: createTitleTextSeparators lives outside the
provided sources; the spec describes the text header as a title row and
an underline row of the same length as each header title. -/
def createTitleTextSeparators (titles : List String) : List String :=
  titles.map (fun t => String.mk (List.replicate t.length '-'))

/-- Modelled from the spec: createMarkdownRow lives outside the provided
sources; the spec describes Markdown output as pipe-delimited table
rows. -/
def createMarkdownRow (cells : List String) : String :=
  "|" ++ String.intercalate "|" cells ++ "|"

/-- Modelled from the spec: createMarkdownColumnAlignment lives outside
the provided sources; the spec describes an alignment-marker row after
the Markdown header row. -/
def createMarkdownColumnAlignment (titles : List String) : List String :=
  titles.map (fun _ => ":--")

/-- One text line per resource (validate.go lines 668-672): the four
fields joined by tabs, as written to the tabwriter. -/
def resourceTextRow (r : CDXResourceInfo) : String :=
  String.intercalate "\t" [r.resourceType, r.name, r.version, r.bomRef]

/-- One CSV record per resource (validate.go lines 720-725). -/
def resourceCSVRow (r : CDXResourceInfo) : List String :=
  [r.resourceType, r.name, r.version, r.bomRef]

/-- One Markdown row per resource (validate.go lines 778-785). -/
def resourceMarkdownRow (r : CDXResourceInfo) : String :=
  createMarkdownRow [r.resourceType, r.name, r.version, r.bomRef]

/-- Result of DisplayResourceListText: the lines written to the writer.
The Go function signature returns no values at all, so it cannot signal
an error; the err field is kept to state that fact and is none by
construction. -/
structure TextListing where
  lines : List String
  err : Option String
deriving DecidableEq, Repr

/-- Result of DisplayResourceListCSV: the records handed to the csv
writer plus the returned Go error (none for nil). -/
structure CSVListing where
  rows : List (List String)
  err : Option String
deriving DecidableEq, Repr

/-- Result of DisplayResourceListMarkdown: the lines written plus the
returned Go error (none for nil). -/
structure MarkdownListing where
  lines : List String
  err : Option String
deriving DecidableEq, Repr

/-- Go function DisplayResourceListText (validate.go lines 623-674):
write title and underline rows, then either the no-resources notice
(when the map is empty) or the sorted resource rows.  The writer is an
in-memory model, so writes always succeed; the Go function has no error
return value. -/
def DisplayResourceListText (bom : BOM) : TextListing :=
  let header := String.intercalate "\t" RESOURCE_LIST_TITLES
  let underline := String.intercalate "\t" (createTitleTextSeparators RESOURCE_LIST_TITLES)
  let entries := bom.resourceMap
  if entries.length = 0 then
    { lines := [header, underline, MSG_OUTPUT_NO_RESOURCES_FOUND], err := none }
  else
    { lines := [header, underline] ++
        (sortResourceEntries entries).map (fun e => resourceTextRow e.2)
      err := none }

/-- Go function DisplayResourceListCSV (validate.go lines 677-733):
write the title record, then on an empty map write the no-resources
notice as a record and return it as an error (fmt.Errorf of the notice);
otherwise write the sorted records and return nil.  The csv writer here
is an in-memory model, so writes themselves always succeed. -/
def DisplayResourceListCSV (bom : BOM) : CSVListing :=
  let entries := bom.resourceMap
  if entries.length = 0 then
    { rows := [RESOURCE_LIST_TITLES, [MSG_OUTPUT_NO_RESOURCES_FOUND]]
      err := some MSG_OUTPUT_NO_RESOURCES_FOUND }
  else
    { rows := RESOURCE_LIST_TITLES ::
        (sortResourceEntries entries).map (fun e => resourceCSVRow e.2)
      err := none }

/-- Go function DisplayResourceListMarkdown (validate.go lines 736-790):
write the title and alignment rows, then on an empty map write the
no-resources notice line and return it as an error (fmt.Errorf of the
notice); otherwise write the sorted rows and return nil. -/
def DisplayResourceListMarkdown (bom : BOM) : MarkdownListing :=
  let titleRow := createMarkdownRow RESOURCE_LIST_TITLES
  let alignmentRow := createMarkdownRow (createMarkdownColumnAlignment RESOURCE_LIST_TITLES)
  let entries := bom.resourceMap
  if entries.length = 0 then
    { lines := [titleRow, alignmentRow, MSG_OUTPUT_NO_RESOURCES_FOUND]
      err := some MSG_OUTPUT_NO_RESOURCES_FOUND }
  else
    { lines := [titleRow, alignmentRow] ++
        (sortResourceEntries entries).map (fun e => resourceMarkdownRow e.2)
      err := none }

/- ===================================================================
   Section 4: loadDocumentResources and ListResources
   (src/cmd/validate.go lines 539-619)
   =================================================================== -/

/-- Modelled from the spec: the constants RESOURCE_TYPE_DEFAULT,
RESOURCE_TYPE_COMPONENT and RESOURCE_TYPE_SERVICE live in the schema
package outside the provided sources; the spec gives the type flag the
values component, service or any with default any. -/
def RESOURCE_TYPE_DEFAULT : String := "any"

/-- Modelled from the spec: see RESOURCE_TYPE_DEFAULT. -/
def RESOURCE_TYPE_COMPONENT : String := "component"

/-- Modelled from the spec: see RESOURCE_TYPE_DEFAULT. -/
def RESOURCE_TYPE_SERVICE : String := "service"

/-- Errors surfaced by the resource listing pipeline: the unsupported
format error built by schema.NewUnsupportedFormatForCommandError
(carrying the format canonical name and the filename), and a generic
application error for collaborator failures. -/
inductive RError
| unsupportedFormat (formatName : String) (filename : String)
| appError (msg : String)
deriving DecidableEq, Repr

/-- Side effects of loadDocumentResources, in order of occurrence:
unmarshaling the document into CycloneDX structures, hashing component
resources, hashing service resources. -/
inductive REvent
| unmarshalBOM
| hashComponents
| hashServices
deriving DecidableEq, Repr

/-- Outcomes of the collaborators the resource pipeline calls but that
live outside the provided sources: LoadInputBOMFileAndDetectSchema,
document.UnmarshalCycloneDXBOM, and the two resource hashing walkers
(which already apply the where filters and return the entries they add
to the ResourceMap). -/
structure ResourceEnv where
  loadBOMResult : Except String BOM
  unmarshalBOMResult : Except String Unit
  hashComponentEntries : Except String (List (String × CDXResourceInfo))
  hashServiceEntries : Except String (List (String × CDXResourceInfo))

/-- Go function loadDocumentResources (validate.go lines 585-619):
reject non-CycloneDX documents with an unsupported format error before
any unmarshaling or hashing; otherwise unmarshal, then hash components
and services according to the resource type filter.  Returns the
(functionally updated) document, the error, and the trace of performed
effects. -/
def loadDocumentResources (env : ResourceEnv) (document : BOM) (resourceType : String) :
    BOM × Option RError × List REvent :=
  if !document.formatIsCycloneDx then
    (document, some (RError.unsupportedFormat document.formatCanonicalName document.filename), [])
  else
    match env.unmarshalBOMResult with
    | .error e => (document, some (RError.appError e), [REvent.unmarshalBOM])
    | .ok _ =>
      let afterComponents :=
        if resourceType = RESOURCE_TYPE_DEFAULT ∨ resourceType = RESOURCE_TYPE_COMPONENT then
          match env.hashComponentEntries with
          | .error e =>
            (document, some (RError.appError e), [REvent.unmarshalBOM, REvent.hashComponents])
          | .ok es =>
            ({ document with resourceMap := document.resourceMap ++ es }, none,
              [REvent.unmarshalBOM, REvent.hashComponents])
        else
          (document, none, [REvent.unmarshalBOM])
      match afterComponents.2.1 with
      | some _ => afterComponents
      | none =>
        if resourceType = RESOURCE_TYPE_DEFAULT ∨ resourceType = RESOURCE_TYPE_SERVICE then
          match env.hashServiceEntries with
          | .error e =>
            (afterComponents.1, some (RError.appError e),
              afterComponents.2.2 ++ [REvent.hashServices])
          | .ok es =>
            ({ afterComponents.1 with resourceMap := afterComponents.1.resourceMap ++ es }, none,
              afterComponents.2.2 ++ [REvent.hashServices])
        else
          afterComponents

/-- Modelled from the spec: format constants for the output format flag
live outside the provided sources; the spec lists txt, csv, markdown
(and json for validation error output). -/
def FORMAT_TEXT : String := "txt"

/-- Modelled from the spec: see FORMAT_TEXT. -/
def FORMAT_CSV : String := "csv"

/-- Modelled from the spec: see FORMAT_TEXT. -/
def FORMAT_MARKDOWN : String := "md"

/-- Modelled from the spec: see FORMAT_TEXT. -/
def FORMAT_JSON : String := "json"

/-- The renderer dispatch in ListResources (validate.go lines 566-580):
text, csv or markdown by format, defaulting to text for anything else. -/
inductive ResourceListOutput
| text (out : TextListing)
| csv (out : CSVListing)
| markdown (out : MarkdownListing)
deriving DecidableEq, Repr

/-- Renderer dispatch extracted from ListResources.  Note the source
discards the error results of the CSV and Markdown renderers (it calls
them as bare statements), so no renderer error reaches the caller. -/
def displayResourceList (document : BOM) (format : String) : ResourceListOutput :=
  if format = FORMAT_TEXT then ResourceListOutput.text (DisplayResourceListText document)
  else if format = FORMAT_CSV then ResourceListOutput.csv (DisplayResourceListCSV document)
  else if format = FORMAT_MARKDOWN then ResourceListOutput.markdown (DisplayResourceListMarkdown document)
  else ResourceListOutput.text (DisplayResourceListText document)

/-- Result of ListResources: the returned error, the effect trace of
loadDocumentResources, and when it got that far, the populated document
and rendered output. -/
structure ListResourcesOutcome where
  err : Option RError
  events : List REvent
  document : Option BOM
  output : Option ResourceListOutput
deriving Repr

/-- Go function ListResources (validate.go lines 539-583): load the BOM
file, populate resources via loadDocumentResources, then render in the
requested format.  Renderer errors are discarded by the source. -/
def ListResources (env : ResourceEnv) (outputFormat : String) (resourceType : String) :
    ListResourcesOutcome :=
  match env.loadBOMResult with
  | .error e => { err := some (RError.appError e), events := [], document := none, output := none }
  | .ok document =>
    let loaded := loadDocumentResources env document resourceType
    match loaded.2.1 with
    | some e =>
      { err := some e, events := loaded.2.2, document := some loaded.1, output := none }
    | none =>
      { err := none, events := loaded.2.2, document := some loaded.1
        output := some (displayResourceList loaded.1 outputFormat) }

/- ===================================================================
   Section 5: the Validate orchestrator
   (src/cmd/validate.go lines 182-362)
   =================================================================== -/

/-- Source constant VALID (validate.go line 36). -/
def VALID : Bool := true

/-- Source constant INVALID (validate.go line 37). -/
def INVALID : Bool := false

/-- Source constant RETRY (validate.go line 254): fixed bound on schema
compile attempts. -/
def RETRY : Nat := 3

/-- Modelled from the spec: MSG_SCHEMA_ERRORS is a message constant
defined outside the provided sources; its exact wording is immaterial
to the claims. -/
def MSG_SCHEMA_ERRORS : String := "schema errors found"

/-- One schema violation from the gojsonschema result: a pointer into
the document, a description, and the offending value. -/
structure SchemaError where
  path : String
  description : String
  value : String
deriving DecidableEq, Repr

/-- The parts of the loaded schema.Sbom document that Validate reads:
the filename, whether the detected format is CycloneDX, the canonical
format name, and the schema file resolved from config for the detected
format, version and variant. -/
structure SbomDocument where
  filename : String
  formatIsCycloneDx : Bool
  formatCanonicalName : String
  schemaInfoFile : String
deriving DecidableEq, Repr

/-- Errors returned by LoadInputSbomFileAndDetectSchema.  Modelled from
the spec: that function lives outside the provided sources; per the
spec and the source comment at validate.go line 195, a syntactically
invalid input surfaces as an encoding/json syntax error with a byte
offset, a shape mismatch as an unmarshal type error, and anything else
as a generic error. -/
inductive LoadErr
| parseError (offset : Nat) (msg : String)
| typeError (msg : String)
| other (msg : String)
deriving DecidableEq, Repr

/-- Error values Validate can return, one constructor per distinct
return path of validate.go lines 182-362 (and, for invalidSBOM, the
wrapper built by NewInvalidSBOMError that carries schema errors). -/
inductive VError
| loadError (e : LoadErr)
| unsupportedFormat (filename : String) (formatName : String)
| schemaReadError (msg : String)
| schemaLoadError (schemaName : String)
| invalidSBOM (msg : String) (schemaErrors : List SchemaError)
| appError (msg : String)
deriving DecidableEq, Repr

/-- Go function IsInvalidSBOMError: true exactly for the InvalidSBOMError
type. -/
def IsInvalidSBOMError : VError → Bool
  | VError.invalidSBOM _ _ => true
  | _ => false

/-- Message of an error value, as the Go Error interface would render
it; only its flow through NewInvalidSBOMError matters to the claims. -/
def vErrorMessage : VError → String
  | VError.loadError (LoadErr.parseError _ msg) => msg
  | VError.loadError (LoadErr.typeError msg) => msg
  | VError.loadError (LoadErr.other msg) => msg
  | VError.unsupportedFormat filename formatName => filename ++ ": " ++ formatName
  | VError.schemaReadError msg => msg
  | VError.schemaLoadError schemaName => "unable to load schema: " ++ schemaName
  | VError.invalidSBOM msg _ => msg
  | VError.appError msg => msg

/-- Result object of jsonSbomSchema.Validate in gojsonschema: the
Valid() flag and the Errors() slice. -/
structure GojsonschemaResult where
  isValid : Bool
  errors : List SchemaError
deriving DecidableEq, Repr

/-- The utils.ValidateCommandFlags fields Validate reads. -/
structure ValidateFlags where
  forcedJsonSchemaFile : String
  schemaVariant : String
  customValidation : Bool
deriving DecidableEq, Repr

/-- The utils.PersistentCommandFlags fields Validate reads. -/
structure PersistentFlags where
  inputFile : String
  outputFormat : String
deriving DecidableEq, Repr

/-- Schema loaders: gojsonschema.NewReferenceLoader over a URL and
gojsonschema.NewBytesLoader over schema bytes.  Both Go constructors
always return non-nil loaders, so the nil-loader check at validate.go
line 246 is unreachable. -/
inductive SchemaLoader
| referenceLoader (url : String)
| bytesLoader (bytes : List Nat)
deriving DecidableEq, Repr

/-- Side effects of Validate, in order of occurrence: reading the
embedded schema file, one schema compile attempt, evaluating the
document against the compiled schema, formatting schema errors. -/
inductive VEvent
| readEmbeddedSchema (file : String)
| compileAttempt
| evaluate
| formatErrors
deriving DecidableEq, Repr

/-- Outcomes of the collaborators Validate calls but that live outside
the provided sources: the document loader, the embedded schema store
(resources.SBOMSchemaFiles.ReadFile), gojsonschema.NewSchema per
attempt (attempts are numbered from zero; a network-dependent attempt
may fail one time and succeed the next), jsonSbomSchema.Validate, the
typed unmarshal used by custom validation, and
validateCustomCDXDocument. -/
structure ValidateEnv where
  loadResult : Except LoadErr SbomDocument
  embeddedReadFile : String → Except String (List Nat)
  newSchemaAttempt : Nat → Except String Unit
  validateResult : Except String GojsonschemaResult
  unmarshalCdxResult : Except String Unit
  customCDXResult : Except VError Unit

/-- Result of resolving the schema loader (validate.go lines 216-244):
the loader or a read error, the events performed, and the schemaName
used in later messages. -/
structure LoaderResolution where
  result : Except String SchemaLoader
  events : List VEvent
  schemaName : String
deriving Repr

/-- Schema loader resolution extracted from Validate (validate.go lines
216-244): a non-empty forced schema file takes absolute precedence and
is wrapped in a reference loader over its file URL; otherwise the
embedded schema file named by the document SchemaInfo is read and
wrapped in a bytes loader. -/
def resolveSchemaLoader (env : ValidateEnv) (validateFlags : ValidateFlags)
    (document : SbomDocument) : LoaderResolution :=
  let forcedSchemaFile := validateFlags.forcedJsonSchemaFile
  if forcedSchemaFile ≠ "" then
    { result := .ok (SchemaLoader.referenceLoader ("file://" ++ forcedSchemaFile))
      events := []
      schemaName := "file://" ++ forcedSchemaFile }
  else
    match env.embeddedReadFile document.schemaInfoFile with
    | .error errRead =>
      { result := .error errRead
        events := [VEvent.readEmbeddedSchema document.schemaInfoFile]
        schemaName := document.schemaInfoFile }
    | .ok bSchema =>
      { result := .ok (SchemaLoader.bytesLoader bSchema)
        events := [VEvent.readEmbeddedSchema document.schemaInfoFile]
        schemaName := document.schemaInfoFile }

/-- The schema compile retry loop (validate.go lines 262-269): starting
at attempt index i with the given attempts remaining and the error of
the previous attempt, call gojsonschema.NewSchema until it succeeds or
the attempts run out.  Returns the number of attempts made overall and
the final outcome. -/
def compileWithRetry (newSchemaAttempt : Nat → Except String Unit) :
    Nat → Nat → Except String Unit → Nat × Except String Unit
  | i, 0, last => (i, last)
  | i, remaining + 1, _ =>
    match newSchemaAttempt i with
    | .ok s => (i + 1, .ok s)
    | .error e => compileWithRetry newSchemaAttempt (i + 1) remaining (.error e)

/-- Second half of validateCustom (validate.go lines 347-361): run
validateCustomCDXDocument; wrap a failure in an InvalidSBOMError unless
it already is one, and report invalid; report valid on success. -/
def validateCustomChecks (env : ValidateEnv) : Bool × Option VError :=
  match env.customCDXResult with
  | .ok _ => (VALID, none)
  | .error e =>
    (INVALID, some (if IsInvalidSBOMError e then e else VError.invalidSBOM (vErrorMessage e) []))

/-- Go function validateCustom (validate.go lines 333-362): for a
CycloneDX document first unmarshal it into typed structures, failing
with invalid on error; then run the custom checks. -/
def validateCustom (env : ValidateEnv) (document : SbomDocument) : Bool × Option VError :=
  if document.formatIsCycloneDx then
    match env.unmarshalCdxResult with
    | .error e => (INVALID, some (VError.appError e))
    | .ok _ => validateCustomChecks env
  else
    validateCustomChecks env

/-- The four results of Validate (valid flag, document, schema errors,
error), plus the trace of performed effects. -/
structure ValidateOutcome where
  valid : Bool
  document : Option SbomDocument
  schemaErrors : List SchemaError
  err : Option VError
  events : List VEvent
deriving Repr

/-- Go function Validate (validate.go lines 182-331): load the input
document, check the custom-validation format precondition, resolve the
schema loader (forced file or embedded bytes), compile the schema with
up to RETRY attempts, evaluate the document, turn schema violations
into an InvalidSBOMError (formatting them for output), and finally run
custom validation when requested.  Every failing return path forces the
valid flag to INVALID. -/
def Validate (env : ValidateEnv) (persistentFlags : PersistentFlags)
    (validateFlags : ValidateFlags) : ValidateOutcome :=
  match env.loadResult with
  | .error e =>
    { valid := INVALID, document := none, schemaErrors := [],
      err := some (VError.loadError e), events := [] }
  | .ok document =>
    if validateFlags.customValidation && !document.formatIsCycloneDx then
      { valid := false, document := some document, schemaErrors := [],
        err := some (VError.unsupportedFormat document.filename document.formatCanonicalName),
        events := [] }
    else
      let resolution := resolveSchemaLoader env validateFlags document
      match resolution.result with
      | .error errRead =>
        { valid := INVALID, document := some document, schemaErrors := [],
          err := some (VError.schemaReadError errRead), events := resolution.events }
      | .ok _schemaLoader =>
        let compiled := compileWithRetry env.newSchemaAttempt 0 RETRY (.ok ())
        let eventsAfterCompile :=
          resolution.events ++ List.replicate compiled.1 VEvent.compileAttempt
        match compiled.2 with
        | .error _errLoad =>
          { valid := INVALID, document := some document, schemaErrors := [],
            err := some (VError.schemaLoadError resolution.schemaName),
            events := eventsAfterCompile }
        | .ok _ =>
          match env.validateResult with
          | .error errValidate =>
            { valid := INVALID, document := some document, schemaErrors := [],
              err := some (VError.appError errValidate),
              events := eventsAfterCompile ++ [VEvent.evaluate] }
          | .ok result =>
            if 0 < result.errors.length then
              { valid := INVALID, document := some document, schemaErrors := result.errors,
                err := some (VError.invalidSBOM MSG_SCHEMA_ERRORS result.errors),
                events := eventsAfterCompile ++ [VEvent.evaluate, VEvent.formatErrors] }
            else
              if validateFlags.customValidation then
                { valid := (validateCustom env document).1, document := some document,
                  schemaErrors := result.errors, err := (validateCustom env document).2,
                  events := eventsAfterCompile ++ [VEvent.evaluate] }
              else
                { valid := result.isValid, document := some document,
                  schemaErrors := result.errors, err := none,
                  events := eventsAfterCompile ++ [VEvent.evaluate] }

/- ===================================================================
   Section 5b: concrete inputs used to exercise the definitions
   =================================================================== -/

/-- A CycloneDX document as the loader would detect it. -/
def doc0 : SbomDocument :=
  { filename := "bom.json", formatIsCycloneDx := true,
    formatCanonicalName := "CycloneDX", schemaInfoFile := "schema/bom-1.4.schema.json" }

/-- Default persistent flags: text output. -/
def pflags0 : PersistentFlags := { inputFile := "bom.json", outputFormat := "txt" }

/-- Default validate flags: no forced schema, no variant, no custom
validation. -/
def vflags0 : ValidateFlags :=
  { forcedJsonSchemaFile := "", schemaVariant := "", customValidation := false }

/-- Validate flags with a forced schema file. -/
def vflagsForced : ValidateFlags :=
  { forcedJsonSchemaFile := "myschema.json", schemaVariant := "", customValidation := false }

/-- A sample schema violation. -/
def schemaErr0 : SchemaError :=
  { path := "components.0", description := "name is required", value := "" }

/-- Baseline environment in which every collaborator succeeds. -/
def envOk : ValidateEnv :=
  { loadResult := Except.ok doc0
    embeddedReadFile := fun _ => Except.ok [123]
    newSchemaAttempt := fun _ => Except.ok ()
    validateResult := Except.ok { isValid := true, errors := [] }
    unmarshalCdxResult := Except.ok ()
    customCDXResult := Except.ok () }

/-- Environment whose input file is not syntactically valid JSON: the
loader fails with a JSON syntax error at a byte offset. -/
def envParseErr : ValidateEnv :=
  { envOk with loadResult := Except.error (LoadErr.parseError 7 "invalid character") }

/-- Environment whose document evaluates against the schema with one
violation. -/
def envViolations : ValidateEnv :=
  { envOk with validateResult := Except.ok { isValid := false, errors := [schemaErr0] } }

/-- Environment in which every schema compile attempt fails. -/
def envCompileFail : ValidateEnv :=
  { envOk with newSchemaAttempt := fun _ => Except.error "503 service unavailable" }

/-- Environment in which the validator library itself errors out. -/
def envValidatorErr : ValidateEnv :=
  { envOk with validateResult := Except.error "internal validator error" }

/-- A non-CycloneDX (SPDX) BOM with an empty resource map. -/
def bomSpdx : BOM :=
  { filename := "spdx.json", formatIsCycloneDx := false,
    formatCanonicalName := "SPDX", resourceMap := [] }

/-- A CycloneDX BOM with an empty resource map. -/
def bomEmpty : BOM :=
  { filename := "bom.json", formatIsCycloneDx := true,
    formatCanonicalName := "CycloneDX", resourceMap := [] }

/-- A CycloneDX BOM holding the two entries of the claim example, in
insertion order: (service, b) before (component, a). -/
def bomTwo : BOM :=
  { filename := "bom.json", formatIsCycloneDx := true,
    formatCanonicalName := "CycloneDX",
    resourceMap :=
      [("service:b", { resourceType := "service", name := "b", version := "1.0", bomRef := "urn:b" }),
       ("component:a", { resourceType := "component", name := "a", version := "2.0", bomRef := "urn:a" })] }

/-- Resource environment in which every collaborator succeeds and the
hashing walkers add nothing. -/
def renvSpdx : ResourceEnv :=
  { loadBOMResult := Except.ok bomSpdx
    unmarshalBOMResult := Except.ok ()
    hashComponentEntries := Except.ok []
    hashServiceEntries := Except.ok [] }

/-- A license choice with only the expression populated. -/
def lcExprOnly : CDXLicenseChoice :=
  { license := CDXLicense.zero, expression := "Apache-2.0" }

/- ===================================================================
   Section 6: ordering lemmas for the rendering sort
   =================================================================== -/

/-- The non-strict ordering the renderers are claimed to produce:
ascending by Type first, then by Name, case-sensitively. -/
def resourceLE (r s : CDXResourceInfo) : Prop :=
  strLt r.resourceType s.resourceType = true ∨
    (r.resourceType = s.resourceType ∧ strLt s.name r.name = false)

/-- Unfolding equation for charListLt on two non-empty lists. -/
theorem charListLt_cons (a b : Char) (as bs : List Char) :
    charListLt (a :: as) (b :: bs) =
      (if a < b then true else if b < a then false else charListLt as bs) := rfl

/-- charListLt is irreflexive. -/
theorem charListLt_irrefl : ∀ as : List Char, charListLt as as = false := by
  intro as
  induction as with
  | nil => rfl
  | cons a as ih => simp [charListLt_cons, lt_irrefl, ih]

/-- charListLt is transitive. -/
theorem charListLt_trans : ∀ as bs cs : List Char,
    charListLt as bs = true → charListLt bs cs = true → charListLt as cs = true := by
  intro as
  induction as with
  | nil =>
    intro bs cs h1 h2
    cases bs with
    | nil => simp [charListLt] at h1
    | cons b bs =>
      cases cs with
      | nil => simp [charListLt] at h2
      | cons c cs => simp [charListLt]
  | cons a as ih =>
    intro bs cs h1 h2
    cases bs with
    | nil => simp [charListLt] at h1
    | cons b bs =>
      cases cs with
      | nil => simp [charListLt] at h2
      | cons c cs =>
        rw [charListLt_cons] at h1 h2 ⊢
        by_cases hab : a < b
        · by_cases hbc : b < c
          · simp [lt_trans hab hbc]
          · by_cases hcb : c < b
            · simp [hbc, hcb] at h2
            · have hbceq : b = c := le_antisymm (not_lt.mp hcb) (not_lt.mp hbc)
              subst hbceq
              simp [hab]
        · by_cases hba : b < a
          · simp [hab, hba] at h1
          · have habeq : a = b := le_antisymm (not_lt.mp hba) (not_lt.mp hab)
            subst habeq
            simp only [lt_irrefl, if_false] at h1
            by_cases hac : a < c
            · simp [hac]
            · by_cases hca : c < a
              · simp [hac, hca] at h2
              · have haceq : a = c := le_antisymm (not_lt.mp hca) (not_lt.mp hac)
                subst haceq
                simp only [lt_irrefl, if_false] at h2 ⊢
                exact ih bs cs h1 h2

/-- Two lists neither of which is below the other are equal. -/
theorem charListLt_eq_of_not_both : ∀ as bs : List Char,
    charListLt as bs = false → charListLt bs as = false → as = bs := by
  intro as
  induction as with
  | nil =>
    intro bs h1 _h2
    cases bs with
    | nil => rfl
    | cons b bs => simp [charListLt] at h1
  | cons a as ih =>
    intro bs h1 h2
    cases bs with
    | nil => simp [charListLt] at h2
    | cons b bs =>
      rw [charListLt_cons] at h1 h2
      by_cases hab : a < b
      · simp [hab] at h1
      · by_cases hba : b < a
        · simp [hab, hba] at h1
          simp [hba] at h2
        · have habeq : a = b := le_antisymm (not_lt.mp hba) (not_lt.mp hab)
          subst habeq
          simp only [lt_irrefl, if_false] at h1 h2
          rw [ih bs h1 h2]

/-- charListLt is asymmetric. -/
theorem charListLt_asymm (as bs : List Char) (h : charListLt as bs = true) :
    charListLt bs as = false := by
  by_contra hc
  have hb : charListLt bs as = true := by
    cases hk : charListLt bs as with
    | true => rfl
    | false => exact absurd hk hc
  have := charListLt_trans as bs as h hb
  rw [charListLt_irrefl] at this
  exact Bool.false_ne_true this

/-- strLt is irreflexive. -/
theorem strLt_irrefl (a : String) : strLt a a = false :=
  charListLt_irrefl a.data

/-- strLt is transitive. -/
theorem strLt_trans {a b c : String} (h1 : strLt a b = true) (h2 : strLt b c = true) :
    strLt a c = true :=
  charListLt_trans a.data b.data c.data h1 h2

/-- strLt is asymmetric. -/
theorem strLt_asymm {a b : String} (h : strLt a b = true) : strLt b a = false :=
  charListLt_asymm a.data b.data h

/-- Two strings neither of which is below the other are equal. -/
theorem strEq_of_not_lt {a b : String} (h1 : strLt a b = false) (h2 : strLt b a = false) :
    a = b := by
  have hd : a.data = b.data := charListLt_eq_of_not_both a.data b.data h1 h2
  cases a with
  | mk da =>
    cases b with
    | mk db => exact congrArg String.mk hd

/-- Derived: for comparable strings, one direction below another or equal. -/
theorem strLt_or_of_lt {a c : String} (b : String) (h : strLt a c = true) :
    strLt a b = true ∨ strLt b c = true := by
  by_cases h1 : strLt a b = true
  · exact Or.inl h1
  · by_cases h2 : strLt b a = true
    · exact Or.inr (strLt_trans h2 h)
    · have hf1 : strLt a b = false := by
        cases hk : strLt a b with
        | true => exact absurd hk h1
        | false => rfl
      have hf2 : strLt b a = false := by
        cases hk : strLt b a with
        | true => exact absurd hk h2
        | false => rfl
      have e : a = b := strEq_of_not_lt hf1 hf2
      exact Or.inr (e ▸ h)

/-- The Boolean order used by the sorting model is exactly resourceLE. -/
theorem resourceInfoLess_not_iff (r s : CDXResourceInfo) :
    (!(resourceInfoLess s r)) = true ↔ resourceLE r s := by
  unfold resourceInfoLess resourceLE
  by_cases ht : s.resourceType = r.resourceType
  · rw [if_neg (by simp [ht]), Bool.not_eq_true']
    constructor
    · intro h
      exact Or.inr ⟨ht.symm, h⟩
    · intro h
      rcases h with h | ⟨_, h⟩
      · rw [ht] at h
        rw [strLt_irrefl] at h
        exact absurd h (by simp)
      · exact h
  · rw [if_pos (by simp [ht]), Bool.not_eq_true']
    constructor
    · intro h
      by_cases hrs : strLt r.resourceType s.resourceType = true
      · exact Or.inl hrs
      · have hrs2 : strLt r.resourceType s.resourceType = false := by
          cases hk : strLt r.resourceType s.resourceType with
          | true => exact absurd hk hrs
          | false => rfl
        exact absurd (strEq_of_not_lt h hrs2) ht
    · intro h
      rcases h with h | ⟨heq, _⟩
      · exact strLt_asymm h
      · exact absurd heq.symm ht

/-- resourceLE is transitive. -/
theorem resourceLE_trans {r s t : CDXResourceInfo}
    (h1 : resourceLE r s) (h2 : resourceLE s t) : resourceLE r t := by
  rcases h1 with h1 | ⟨he1, hn1⟩
  · rcases h2 with h2 | ⟨he2, _⟩
    · exact Or.inl (strLt_trans h1 h2)
    · exact Or.inl (he2 ▸ h1)
  · rcases h2 with h2 | ⟨he2, hn2⟩
    · exact Or.inl (he1 ▸ h2)
    · refine Or.inr ⟨he1.trans he2, ?_⟩
      cases hk : strLt t.name r.name with
      | false => rfl
      | true =>
        rcases strLt_or_of_lt s.name hk with hts | hsr
        · rw [hts] at hn2
          exact absurd hn2 (by simp)
        · rw [hsr] at hn1
          exact absurd hn1 (by simp)

/-- resourceLE is total. -/
theorem resourceLE_total (r s : CDXResourceInfo) : resourceLE r s ∨ resourceLE s r := by
  by_cases ht : r.resourceType = s.resourceType
  · by_cases hn : strLt s.name r.name = true
    · exact Or.inr (Or.inr ⟨ht.symm, strLt_asymm hn⟩)
    · refine Or.inl (Or.inr ⟨ht, ?_⟩)
      cases hk : strLt s.name r.name with
      | false => rfl
      | true => exact absurd hk hn
  · by_cases hl : strLt r.resourceType s.resourceType = true
    · exact Or.inl (Or.inl hl)
    · have hl2 : strLt r.resourceType s.resourceType = false := by
        cases hk : strLt r.resourceType s.resourceType with
        | true => exact absurd hk hl
        | false => rfl
      cases hk : strLt s.resourceType r.resourceType with
      | true => exact Or.inr (Or.inl hk)
      | false => exact absurd (strEq_of_not_lt hl2 hk) ht

/- ===================================================================
   Section 7: lemmas about the compile retry loop and custom validation
   =================================================================== -/

/-- Unfolding equation for compileWithRetry with attempts remaining. -/
theorem compileWithRetry_succ (f : Nat → Except String Unit) (i n : Nat)
    (acc : Except String Unit) :
    compileWithRetry f i (n + 1) acc =
      (match f i with
       | Except.ok s => (i + 1, Except.ok s)
       | Except.error e => compileWithRetry f (i + 1) n (Except.error e)) := by
  rfl

/-- The retry loop makes at most the remaining number of attempts. -/
theorem compileWithRetry_fst_le (f : Nat → Except String Unit) :
    ∀ (n i : Nat) (acc : Except String Unit), (compileWithRetry f i n acc).1 ≤ i + n := by
  intro n
  induction n with
  | zero =>
    intro i acc
    simp [compileWithRetry]
  | succ n ih =>
    intro i acc
    cases hf : f i with
    | ok s =>
      simp only [compileWithRetry, hf]
      omega
    | error e =>
      simp only [compileWithRetry, hf]
      have := ih (i + 1) (Except.error e)
      omega

/-- The retry loop stops at the first successful attempt: when the
first k attempts fail and attempt k succeeds, exactly k + 1 attempts
are made. -/
theorem compileWithRetry_early (f : Nat → Except String Unit) :
    ∀ (k n i : Nat) (acc : Except String Unit), k < n →
      (∀ j, j < k → ∃ e, f (i + j) = Except.error e) →
      f (i + k) = Except.ok () →
      compileWithRetry f i n acc = (i + k + 1, Except.ok ()) := by
  intro k
  induction k with
  | zero =>
    intro n i acc hn _hprev hok
    cases n with
    | zero => omega
    | succ n =>
      rw [Nat.add_zero] at hok
      simp [compileWithRetry, hok]
  | succ k ih =>
    intro n i acc hn hprev hok
    cases n with
    | zero => omega
    | succ n =>
      obtain ⟨e, he⟩ := hprev 0 (Nat.succ_pos k)
      rw [Nat.add_zero] at he
      have h2 : ∀ j, j < k → ∃ e2, f (i + 1 + j) = Except.error e2 := by
        intro j hj
        have := hprev (j + 1) (by omega)
        rwa [show i + (j + 1) = i + 1 + j by omega] at this
      have hok2 : f (i + 1 + k) = Except.ok () := by
        rwa [show i + 1 + k = i + (k + 1) by omega]
      have hrec := ih n (i + 1) (Except.error e) (by omega) h2 hok2
      rw [compileWithRetry_succ]
      simp only [he]
      rw [hrec]
      simp only [Prod.mk.injEq]
      exact ⟨by omega, trivial⟩

/-- When every attempt within the bound fails, the retry loop makes all
attempts and ends with the error of the last one. -/
theorem compileWithRetry_allFail (f : Nat → Except String Unit) :
    ∀ (n i : Nat) (acc : Except String Unit), 0 < n →
      (∀ j, j < n → ∃ e, f (i + j) = Except.error e) →
      ∃ e, compileWithRetry f i n acc = (i + n, Except.error e) := by
  intro n
  induction n with
  | zero =>
    intro i acc h
    omega
  | succ n ih =>
    intro i acc _ hall
    obtain ⟨e, he⟩ := hall 0 (Nat.succ_pos n)
    rw [Nat.add_zero] at he
    cases hn : n with
    | zero =>
      subst hn
      refine ⟨e, ?_⟩
      simp [compileWithRetry, he]
    | succ m =>
      subst hn
      have hall2 : ∀ j, j < m + 1 → ∃ e2, f (i + 1 + j) = Except.error e2 := by
        intro j hj
        have := hall (j + 1) (by omega)
        rwa [show i + (j + 1) = i + 1 + j by omega] at this
      obtain ⟨e2, he2⟩ := ih (i + 1) (Except.error e) (Nat.succ_pos m) hall2
      refine ⟨e2, ?_⟩
      rw [compileWithRetry_succ]
      simp only [he]
      rw [he2]
      simp only [Prod.mk.injEq]
      exact ⟨by omega, trivial⟩

/-- validateCustom either reports valid with no error, or invalid
together with an error. -/
theorem validateCustom_cases (env : ValidateEnv) (document : SbomDocument) :
    validateCustom env document = (VALID, none) ∨
      ∃ e, validateCustom env document = (INVALID, some e) := by
  unfold validateCustom validateCustomChecks
  cases hf : document.formatIsCycloneDx with
  | true =>
    cases hu : env.unmarshalCdxResult with
    | error e => simp [hf, hu]
    | ok u =>
      cases hc : env.customCDXResult with
      | ok c => simp [hf, hu, hc]
      | error e => simp [hf, hu, hc]
  | false =>
    cases hc : env.customCDXResult with
    | ok c => simp [hf, hc]
    | error e => simp [hf, hc]

/- ===================================================================
   Section 8: claim theorems
   =================================================================== -/

/-- Claim C2: for every CDXLicenseChoice value whose Expression field is
a non-empty string and whose License field equals the zero CDXLicense
value, MarshalJSON returns exactly the JSON object containing the single
key expression bound to that string, no license key, and a nil error
(Except.ok). -/
theorem licenseChoice_marshal_expression_only (value : CDXLicenseChoice)
    (h1 : value.expression ≠ "") (h2 : value.license = CDXLicense.zero) :
    value.MarshalJSON = Except.ok [("expression", JsonValue.str value.expression)] := by
  unfold CDXLicenseChoice.MarshalJSON CDXLicenseChoice.marshalJSONMap
  rw [if_pos h1, if_neg (by simp [h2])]
  simp

/-- Witness for C2 at a concrete license choice. -/
theorem licenseChoice_marshal_expression_only_witness :
    CDXLicenseChoice.MarshalJSON lcExprOnly =
      Except.ok [("expression", JsonValue.str "Apache-2.0")] :=
  licenseChoice_marshal_expression_only lcExprOnly (by decide) rfl

/-- Claim C7: for every CDXAttachment value, MarshalJSON omits from the
serialized object exactly those of contentType, encoding, content that
are empty (each key is present iff its field is non-empty), parsing the
output back reproduces the attachment exactly (hence the same populated
fields with the same values), and the error result is nil. -/
theorem attachment_marshal_roundtrip (a : CDXAttachment) :
    (("contentType" ∈ a.marshalJSONMap.map Prod.fst) ↔ a.contentType ≠ "") ∧
    (("encoding" ∈ a.marshalJSONMap.map Prod.fst) ↔ a.encoding ≠ "") ∧
    (("content" ∈ a.marshalJSONMap.map Prod.fst) ↔ a.content ≠ "") ∧
    parseAttachment a.marshalJSONMap = a ∧
    a.MarshalJSON = Except.ok a.marshalJSONMap := by
  obtain ⟨ct, en, co⟩ := a
  by_cases h1 : ct = "" <;> by_cases h2 : en = "" <;> by_cases h3 : co = "" <;>
    simp_all [CDXAttachment.marshalJSONMap, CDXAttachment.MarshalJSON,
      parseAttachment, lookupStr, List.lookup]

/-- Claim C1: for every BOM whose ResourceMap has zero entries, each
renderer emits the no-matching-resources notice; the text renderer has
no error result at all (success), while the CSV and Markdown renderers
both return that notice as a non-nil error. -/
theorem display_empty_resource_asymmetry (bom : BOM) (h : bom.resourceMap.length = 0) :
    (DisplayResourceListText bom).err = none ∧
    MSG_OUTPUT_NO_RESOURCES_FOUND ∈ (DisplayResourceListText bom).lines ∧
    (DisplayResourceListCSV bom).err = some MSG_OUTPUT_NO_RESOURCES_FOUND ∧
    [MSG_OUTPUT_NO_RESOURCES_FOUND] ∈ (DisplayResourceListCSV bom).rows ∧
    (DisplayResourceListMarkdown bom).err = some MSG_OUTPUT_NO_RESOURCES_FOUND ∧
    MSG_OUTPUT_NO_RESOURCES_FOUND ∈ (DisplayResourceListMarkdown bom).lines := by
  simp [DisplayResourceListText, DisplayResourceListCSV, DisplayResourceListMarkdown, h]

/-- Witness for C1 at an empty BOM. -/
theorem display_empty_resource_asymmetry_witness :
    (DisplayResourceListText bomEmpty).err = none ∧
    MSG_OUTPUT_NO_RESOURCES_FOUND ∈ (DisplayResourceListText bomEmpty).lines ∧
    (DisplayResourceListCSV bomEmpty).err = some MSG_OUTPUT_NO_RESOURCES_FOUND ∧
    [MSG_OUTPUT_NO_RESOURCES_FOUND] ∈ (DisplayResourceListCSV bomEmpty).rows ∧
    (DisplayResourceListMarkdown bomEmpty).err = some MSG_OUTPUT_NO_RESOURCES_FOUND ∧
    MSG_OUTPUT_NO_RESOURCES_FOUND ∈ (DisplayResourceListMarkdown bomEmpty).lines :=
  display_empty_resource_asymmetry bomEmpty rfl

/-- Claim C6: for every non-empty resource collection, in whatever
insertion order, all three renderers render exactly the sorted entries:
the sorted list is ordered ascending, case-sensitively, by Type first
and then by Name (resourceLE), it is a permutation of the input
entries, and each renderer lists its rows in that order after its
header rows. -/
theorem display_sorted_by_type_then_name (bom : BOM) (h : bom.resourceMap ≠ []) :
    List.Pairwise (fun e1 e2 => resourceLE e1.2 e2.2) (sortResourceEntries bom.resourceMap) ∧
    (sortResourceEntries bom.resourceMap).Perm bom.resourceMap ∧
    (DisplayResourceListText bom).lines =
      [String.intercalate "\t" RESOURCE_LIST_TITLES,
       String.intercalate "\t" (createTitleTextSeparators RESOURCE_LIST_TITLES)] ++
      (sortResourceEntries bom.resourceMap).map (fun e => resourceTextRow e.2) ∧
    (DisplayResourceListCSV bom).rows =
      RESOURCE_LIST_TITLES ::
        (sortResourceEntries bom.resourceMap).map (fun e => resourceCSVRow e.2) ∧
    (DisplayResourceListMarkdown bom).lines =
      [createMarkdownRow RESOURCE_LIST_TITLES,
       createMarkdownRow (createMarkdownColumnAlignment RESOURCE_LIST_TITLES)] ++
      (sortResourceEntries bom.resourceMap).map (fun e => resourceMarkdownRow e.2) := by
  have hlen : ¬ bom.resourceMap.length = 0 := by
    simpa [List.length_eq_zero] using h
  refine ⟨?_, ?_, ?_, ?_, ?_⟩
  · have htrans : ∀ a b c : String × CDXResourceInfo,
        (!(resourceInfoLess b.2 a.2)) = true → (!(resourceInfoLess c.2 b.2)) = true →
        (!(resourceInfoLess c.2 a.2)) = true := by
      intro a b c hab hbc
      rw [resourceInfoLess_not_iff] at hab hbc ⊢
      exact resourceLE_trans hab hbc
    have htotal : ∀ a b : String × CDXResourceInfo,
        ((!(resourceInfoLess b.2 a.2)) || (!(resourceInfoLess a.2 b.2))) = true := by
      intro a b
      rw [Bool.or_eq_true]
      rcases resourceLE_total a.2 b.2 with h1 | h1
      · exact Or.inl ((resourceInfoLess_not_iff a.2 b.2).mpr h1)
      · exact Or.inr ((resourceInfoLess_not_iff b.2 a.2).mpr h1)
    have hs := @List.sorted_mergeSort (String × CDXResourceInfo)
        (fun e1 e2 => !(resourceInfoLess e2.2 e1.2)) htrans htotal bom.resourceMap
    unfold sortResourceEntries
    exact hs.imp (fun hab => (resourceInfoLess_not_iff _ _).mp hab)
  · exact List.mergeSort_perm bom.resourceMap _
  · simp [DisplayResourceListText, hlen]
  · simp [DisplayResourceListCSV, hlen]
  · simp [DisplayResourceListMarkdown, hlen]

/-- Witness for C6 at the two-entry example of the claim: insertion
order (service, b) then (component, a). -/
theorem display_sorted_by_type_then_name_witness :
    List.Pairwise (fun e1 e2 => resourceLE e1.2 e2.2) (sortResourceEntries bomTwo.resourceMap) ∧
    (sortResourceEntries bomTwo.resourceMap).Perm bomTwo.resourceMap ∧
    (DisplayResourceListText bomTwo).lines =
      [String.intercalate "\t" RESOURCE_LIST_TITLES,
       String.intercalate "\t" (createTitleTextSeparators RESOURCE_LIST_TITLES)] ++
      (sortResourceEntries bomTwo.resourceMap).map (fun e => resourceTextRow e.2) ∧
    (DisplayResourceListCSV bomTwo).rows =
      RESOURCE_LIST_TITLES ::
        (sortResourceEntries bomTwo.resourceMap).map (fun e => resourceCSVRow e.2) ∧
    (DisplayResourceListMarkdown bomTwo).lines =
      [createMarkdownRow RESOURCE_LIST_TITLES,
       createMarkdownRow (createMarkdownColumnAlignment RESOURCE_LIST_TITLES)] ++
      (sortResourceEntries bomTwo.resourceMap).map (fun e => resourceMarkdownRow e.2) :=
  display_sorted_by_type_then_name bomTwo (by simp [bomTwo])

/-- Claim C9: for every document whose detected format is not CycloneDX,
loadDocumentResources returns the unsupported-format error with the
document untouched and an empty effect trace (no unmarshaling, no
resource hashing), and hence ListResources on such a document returns
that error with no effects performed and no output rendered. -/
theorem loadDocumentResources_unsupported_format (env : ResourceEnv) (document : BOM)
    (resourceType fmt : String) (h : document.formatIsCycloneDx = false) :
    loadDocumentResources env document resourceType =
      (document, some (RError.unsupportedFormat document.formatCanonicalName document.filename),
        []) ∧
    (env.loadBOMResult = Except.ok document →
      (ListResources env fmt resourceType).err =
        some (RError.unsupportedFormat document.formatCanonicalName document.filename) ∧
      (ListResources env fmt resourceType).events = [] ∧
      (ListResources env fmt resourceType).document = some document ∧
      (ListResources env fmt resourceType).output = none) := by
  have h1 : loadDocumentResources env document resourceType =
      (document, some (RError.unsupportedFormat document.formatCanonicalName document.filename),
        []) := by
    unfold loadDocumentResources
    rw [h]
    simp
  refine ⟨h1, ?_⟩
  intro hl
  unfold ListResources
  rw [hl]
  simp [h1]

/-- Witness for C9 at a concrete SPDX document. -/
theorem loadDocumentResources_unsupported_format_witness :
    loadDocumentResources renvSpdx bomSpdx "any" =
      (bomSpdx, some (RError.unsupportedFormat bomSpdx.formatCanonicalName bomSpdx.filename),
        []) ∧
    (renvSpdx.loadBOMResult = Except.ok bomSpdx →
      (ListResources renvSpdx "txt" "any").err =
        some (RError.unsupportedFormat bomSpdx.formatCanonicalName bomSpdx.filename) ∧
      (ListResources renvSpdx "txt" "any").events = [] ∧
      (ListResources renvSpdx "txt" "any").document = some bomSpdx ∧
      (ListResources renvSpdx "txt" "any").output = none) :=
  loadDocumentResources_unsupported_format renvSpdx bomSpdx "any" "txt" rfl

/-- Claim C3: for every input whose bytes are not syntactically valid
JSON — modelled, per the spec, by the document loader failing with a
JSON parse error carrying a byte offset — Validate returns valid=false,
the parse error itself (which is not an InvalidSBOMError), and an empty
schema-error list. -/
theorem validate_parse_error (env : ValidateEnv) (persistentFlags : PersistentFlags)
    (validateFlags : ValidateFlags) (offset : Nat) (msg : String)
    (h : env.loadResult = Except.error (LoadErr.parseError offset msg)) :
    (Validate env persistentFlags validateFlags).valid = false ∧
    (Validate env persistentFlags validateFlags).schemaErrors = [] ∧
    (Validate env persistentFlags validateFlags).err =
      some (VError.loadError (LoadErr.parseError offset msg)) ∧
    IsInvalidSBOMError (VError.loadError (LoadErr.parseError offset msg)) = false := by
  unfold Validate
  rw [h]
  exact ⟨rfl, rfl, rfl, rfl⟩

/-- Witness for C3 at a concrete environment whose input is not valid
JSON. -/
theorem validate_parse_error_witness :
    (Validate envParseErr pflags0 vflags0).valid = false ∧
    (Validate envParseErr pflags0 vflags0).schemaErrors = [] ∧
    (Validate envParseErr pflags0 vflags0).err =
      some (VError.loadError (LoadErr.parseError 7 "invalid character")) ∧
    IsInvalidSBOMError (VError.loadError (LoadErr.parseError 7 "invalid character")) = false :=
  validate_parse_error envParseErr pflags0 vflags0 7 "invalid character" rfl

/-- Claim C4: for every document that loads successfully and, after a
successful schema resolution and compilation, evaluates with at least
one schema violation, Validate returns valid=false, a non-empty
schema-error list (exactly the violations reported), and an
InvalidSBOMError wrapping those schema errors. -/
theorem validate_schema_violations (env : ValidateEnv) (persistentFlags : PersistentFlags)
    (validateFlags : ValidateFlags) (document : SbomDocument) (result : GojsonschemaResult)
    (h1 : env.loadResult = Except.ok document)
    (h2 : (validateFlags.customValidation && !document.formatIsCycloneDx) = false)
    (h3 : ∃ loader, (resolveSchemaLoader env validateFlags document).result = Except.ok loader)
    (h4 : (compileWithRetry env.newSchemaAttempt 0 RETRY (Except.ok ())).2 = Except.ok ())
    (h5 : env.validateResult = Except.ok result)
    (h6 : result.errors ≠ []) :
    (Validate env persistentFlags validateFlags).valid = false ∧
    (Validate env persistentFlags validateFlags).schemaErrors = result.errors ∧
    (Validate env persistentFlags validateFlags).schemaErrors ≠ [] ∧
    (Validate env persistentFlags validateFlags).err =
      some (VError.invalidSBOM MSG_SCHEMA_ERRORS result.errors) ∧
    IsInvalidSBOMError (VError.invalidSBOM MSG_SCHEMA_ERRORS result.errors) = true := by
  obtain ⟨loader, hload⟩ := h3
  have hpos : 0 < result.errors.length := List.length_pos.mpr h6
  unfold Validate
  rw [h1]
  simp only [h2, Bool.false_eq_true, if_false, hload, h4, h5, hpos, if_true]
  simp [h6, INVALID, IsInvalidSBOMError]

/-- Witness for C4 at a concrete environment reporting one violation. -/
theorem validate_schema_violations_witness :
    (Validate envViolations pflags0 vflags0).valid = false ∧
    (Validate envViolations pflags0 vflags0).schemaErrors = [schemaErr0] ∧
    (Validate envViolations pflags0 vflags0).schemaErrors ≠ [] ∧
    (Validate envViolations pflags0 vflags0).err =
      some (VError.invalidSBOM MSG_SCHEMA_ERRORS [schemaErr0]) ∧
    IsInvalidSBOMError (VError.invalidSBOM MSG_SCHEMA_ERRORS [schemaErr0]) = true :=
  validate_schema_violations envViolations pflags0 vflags0 doc0
    { isValid := false, errors := [schemaErr0] }
    rfl rfl ⟨SchemaLoader.bytesLoader [123], rfl⟩ rfl rfl (by simp)

/-- With a forced schema file, schema loader resolution performs no
embedded schema read. -/
theorem resolveSchemaLoader_forced_events (env : ValidateEnv) (vf : ValidateFlags)
    (d : SbomDocument) (hf : vf.forcedJsonSchemaFile ≠ "") :
    (resolveSchemaLoader env vf d).events = [] := by
  simp [resolveSchemaLoader, hf]

/-- With a forced schema file, no embedded schema read event ever
appears in the Validate trace, whatever the other collaborators do. -/
theorem validate_no_embedded_read_of_forced (env : ValidateEnv) (pf : PersistentFlags)
    (vf : ValidateFlags) (hf : vf.forcedJsonSchemaFile ≠ "") (f : String) :
    VEvent.readEmbeddedSchema f ∉ (Validate env pf vf).events := by
  unfold Validate
  cases hl : env.loadResult with
  | error e => simp
  | ok d =>
    have hre : (resolveSchemaLoader env vf d).events = [] :=
      resolveSchemaLoader_forced_events env vf d hf
    cases hc : (vf.customValidation && !d.formatIsCycloneDx) with
    | true => simp [hc]
    | false =>
      cases hr : (resolveSchemaLoader env vf d).result with
      | error e2 => simp [hc, hr, hre]
      | ok l =>
        cases hcomp : (compileWithRetry env.newSchemaAttempt 0 RETRY (Except.ok ())).2 with
        | error e3 => simp [hc, hr, hcomp, hre, List.mem_append, List.mem_replicate]
        | ok u =>
          cases hv : env.validateResult with
          | error e4 => simp [hc, hr, hcomp, hv, hre, List.mem_append, List.mem_replicate]
          | ok result =>
            by_cases hn : 0 < result.errors.length
            · simp [hc, hr, hcomp, hv, hn, hre, List.mem_append, List.mem_replicate]
            · cases hcu : vf.customValidation with
              | true =>
                simp only [hc, hr, hcomp, hv, hn, hcu, hre, if_false]
                split <;> simp [List.mem_append, List.mem_replicate]
              | false =>
                simp [hc, hr, hcomp, hv, hn, hcu, hre, List.mem_append, List.mem_replicate]

/-- Claim C8: when the forced-schema-file flag is a non-empty path, the
schema loader is a reference loader over exactly that path (prefixed
file://), resolution performs no embedded read, and no embedded schema
read event appears anywhere in the Validate trace; conversely, with no
forced path, resolution reads the embedded schema file named by the
document SchemaInfo. -/
theorem validate_forced_schema_precedence (env : ValidateEnv) (pf : PersistentFlags)
    (vf : ValidateFlags) (document : SbomDocument) :
    (vf.forcedJsonSchemaFile ≠ "" →
      (resolveSchemaLoader env vf document).result =
        Except.ok (SchemaLoader.referenceLoader ("file://" ++ vf.forcedJsonSchemaFile)) ∧
      (resolveSchemaLoader env vf document).events = [] ∧
      ∀ f, VEvent.readEmbeddedSchema f ∉ (Validate env pf vf).events) ∧
    (vf.forcedJsonSchemaFile = "" →
      (resolveSchemaLoader env vf document).events =
        [VEvent.readEmbeddedSchema document.schemaInfoFile]) := by
  constructor
  · intro hf
    refine ⟨?_, resolveSchemaLoader_forced_events env vf document hf, ?_⟩
    · simp [resolveSchemaLoader, hf]
    · intro f
      exact validate_no_embedded_read_of_forced env pf vf hf f
  · intro h0
    cases he : env.embeddedReadFile document.schemaInfoFile with
    | error e => simp [resolveSchemaLoader, h0, he]
    | ok b => simp [resolveSchemaLoader, h0, he]

/-- Witness for C8 at a concrete forced-schema invocation. -/
theorem validate_forced_schema_precedence_witness :
    (resolveSchemaLoader envOk vflagsForced doc0).result =
      Except.ok (SchemaLoader.referenceLoader ("file://" ++ "myschema.json")) ∧
    (resolveSchemaLoader envOk vflagsForced doc0).events = [] ∧
    VEvent.readEmbeddedSchema "schema/bom-1.4.schema.json" ∉
      (Validate envOk pflags0 vflagsForced).events := by
  have h := (validate_forced_schema_precedence envOk pflags0 vflagsForced doc0).1 (by decide)
  exact ⟨h.1, h.2.1, h.2.2 "schema/bom-1.4.schema.json"⟩

/-- Schema loader resolution performs either no event or exactly one
embedded schema read. -/
theorem resolveSchemaLoader_events_cases (env : ValidateEnv) (vf : ValidateFlags)
    (d : SbomDocument) :
    (resolveSchemaLoader env vf d).events = [] ∨
    (resolveSchemaLoader env vf d).events = [VEvent.readEmbeddedSchema d.schemaInfoFile] := by
  by_cases hf : vf.forcedJsonSchemaFile = ""
  · right
    cases he : env.embeddedReadFile d.schemaInfoFile with
    | error e => simp [resolveSchemaLoader, hf, he]
    | ok b => simp [resolveSchemaLoader, hf, he]
  · exact Or.inl (resolveSchemaLoader_forced_events env vf d hf)

/-- Over every run of Validate, at most RETRY compile attempts appear in
the trace. -/
theorem validate_compileAttempt_count_le (env : ValidateEnv) (pf : PersistentFlags)
    (vf : ValidateFlags) :
    List.count VEvent.compileAttempt (Validate env pf vf).events ≤ RETRY := by
  have hfst : (compileWithRetry env.newSchemaAttempt 0 RETRY (Except.ok ())).1 ≤ RETRY := by
    have := compileWithRetry_fst_le env.newSchemaAttempt RETRY 0 (Except.ok ())
    omega
  have hresCount : ∀ d : SbomDocument,
      List.count VEvent.compileAttempt (resolveSchemaLoader env vf d).events = 0 := by
    intro d
    rcases resolveSchemaLoader_events_cases env vf d with h | h <;>
      simp [h, List.count_singleton, List.count_nil, beq_iff_eq]
  unfold Validate
  cases hl : env.loadResult with
  | error e => simp [RETRY]
  | ok d =>
    cases hc : (vf.customValidation && !d.formatIsCycloneDx) with
    | true => simp [hc, RETRY]
    | false =>
      cases hr : (resolveSchemaLoader env vf d).result with
      | error e2 => simp [hc, hr, hresCount d, RETRY]
      | ok l =>
        cases hcomp : (compileWithRetry env.newSchemaAttempt 0 RETRY (Except.ok ())).2 with
        | error e3 =>
          simp only [hc, hr, hcomp, if_false]
          simpa [List.count_append, List.count_replicate, beq_iff_eq, hresCount d]
            using hfst
        | ok u =>
          cases hv : env.validateResult with
          | error e4 =>
            simp only [hc, hr, hcomp, hv, if_false]
            simpa [List.count_append, List.count_replicate, List.count_singleton,
              beq_iff_eq, hresCount d] using hfst
          | ok result =>
            by_cases hn : 0 < result.errors.length
            · simp only [hc, hr, hcomp, hv, hn, if_false, if_true]
              simpa [List.count_append, List.count_replicate, List.count_cons,
                List.count_nil, beq_iff_eq, hresCount d] using hfst
            · cases hcu : vf.customValidation with
              | true =>
                simp only [hc, hr, hcomp, hv, hn, hcu, if_false]
                split
                · simp [RETRY]
                · simpa [List.count_append, List.count_replicate, List.count_singleton,
                    beq_iff_eq, hresCount d] using hfst
              | false =>
                simp only [hc, hr, hcomp, hv, hn, hcu, if_false]
                simpa [List.count_append, List.count_replicate, List.count_singleton,
                  beq_iff_eq, hresCount d] using hfst

/-- Claim C5: schema compilation in Validate is attempted at most RETRY
(3) times on every run; the retry loop exits with the first successful
attempt (k failures followed by a success make exactly k + 1 attempts);
and when all RETRY attempts fail, Validate returns valid=false with the
schema-load error and the evaluation step is never reached. -/
theorem validate_compile_retry_bound (env : ValidateEnv) (pf : PersistentFlags)
    (vf : ValidateFlags) :
    List.count VEvent.compileAttempt (Validate env pf vf).events ≤ RETRY ∧
    (∀ k, k < RETRY → (∀ j, j < k → ∃ e, env.newSchemaAttempt j = Except.error e) →
      env.newSchemaAttempt k = Except.ok () →
      compileWithRetry env.newSchemaAttempt 0 RETRY (Except.ok ()) = (k + 1, Except.ok ())) ∧
    ((∀ j, j < RETRY → ∃ e, env.newSchemaAttempt j = Except.error e) →
      ∀ (document : SbomDocument) (loader : SchemaLoader),
        env.loadResult = Except.ok document →
        (vf.customValidation && !document.formatIsCycloneDx) = false →
        (resolveSchemaLoader env vf document).result = Except.ok loader →
        (Validate env pf vf).valid = false ∧
        (Validate env pf vf).err =
          some (VError.schemaLoadError (resolveSchemaLoader env vf document).schemaName) ∧
        VEvent.evaluate ∉ (Validate env pf vf).events) := by
  refine ⟨validate_compileAttempt_count_le env pf vf, ?_, ?_⟩
  · intro k hk hprev hok
    have h := compileWithRetry_early env.newSchemaAttempt k RETRY 0 (Except.ok ()) hk
      (by intro j hj; simpa using hprev j hj) (by simpa using hok)
    simpa using h
  · intro hall document loader h1 h2 h3
    obtain ⟨e, hcw⟩ := compileWithRetry_allFail env.newSchemaAttempt RETRY 0 (Except.ok ())
      (by norm_num [RETRY]) (by intro j hj; simpa using hall j hj)
    have hcw2 : (compileWithRetry env.newSchemaAttempt 0 RETRY (Except.ok ())).2 =
        Except.error e := by rw [hcw]
    unfold Validate
    rw [h1]
    simp only [h2, Bool.false_eq_true, if_false, h3, hcw2]
    refine ⟨?_, ?_, ?_⟩
    · simp [INVALID]
    · simp
    · rcases resolveSchemaLoader_events_cases env vf document with hres | hres <;>
        simp [hres, List.mem_append, List.mem_replicate]

/-- Witness for C5 at a concrete environment whose compile attempts all
fail. -/
theorem validate_compile_retry_bound_witness :
    List.count VEvent.compileAttempt (Validate envCompileFail pflags0 vflags0).events ≤ RETRY ∧
    (Validate envCompileFail pflags0 vflags0).valid = false ∧
    (Validate envCompileFail pflags0 vflags0).err =
      some (VError.schemaLoadError (resolveSchemaLoader envCompileFail vflags0 doc0).schemaName) ∧
    VEvent.evaluate ∉ (Validate envCompileFail pflags0 vflags0).events := by
  have h := validate_compile_retry_bound envCompileFail pflags0 vflags0
  have h3 := h.2.2 (fun j _hj => ⟨"503 service unavailable", rfl⟩) doc0
    (SchemaLoader.bytesLoader [123]) rfl rfl rfl
  exact ⟨h.1, h3.1, h3.2.1, h3.2.2⟩

/-- Every run of Validate ends with either no error or an invalid
verdict. -/
theorem validate_valid_or_err (env : ValidateEnv) (pf : PersistentFlags)
    (vf : ValidateFlags) :
    (Validate env pf vf).err = none ∨ (Validate env pf vf).valid = false := by
  unfold Validate
  cases hl : env.loadResult with
  | error e => right; simp [INVALID]
  | ok d =>
    cases hc : (vf.customValidation && !d.formatIsCycloneDx) with
    | true => right; simp [hc]
    | false =>
      cases hr : (resolveSchemaLoader env vf d).result with
      | error e2 => right; simp [hc, hr, INVALID]
      | ok l =>
        cases hcomp : (compileWithRetry env.newSchemaAttempt 0 RETRY (Except.ok ())).2 with
        | error e3 => right; simp [hc, hr, hcomp, INVALID]
        | ok u =>
          cases hv : env.validateResult with
          | error e4 => right; simp [hc, hr, hcomp, hv, INVALID]
          | ok result =>
            by_cases hn : 0 < result.errors.length
            · right; simp [hc, hr, hcomp, hv, hn, INVALID]
            · cases hcu : vf.customValidation with
              | false => left; simp [hc, hr, hcomp, hv, hn, hcu]
              | true =>
                cases hd : d.formatIsCycloneDx with
                | false =>
                  rw [hcu, hd] at hc
                  simp at hc
                | true =>
                  rcases validateCustom_cases env d with hvc | ⟨e5, hvc⟩
                  · left
                    simp [hc, hr, hcomp, hv, hn, hcu, hd, hvc]
                  · right
                    simp [hc, hr, hcomp, hv, hn, hcu, hd, hvc, INVALID]

/-- Claim C10: on every return path of Validate, a non-nil returned
error comes with valid=false; Validate never returns an error together
with a valid verdict. -/
theorem validate_error_implies_invalid (env : ValidateEnv) (pf : PersistentFlags)
    (vf : ValidateFlags) (e : VError)
    (h : (Validate env pf vf).err = some e) :
    (Validate env pf vf).valid = false := by
  rcases validate_valid_or_err env pf vf with h0 | h0
  · rw [h0] at h
    exact absurd h (by simp)
  · exact h0

/-- Witness for C10 at a concrete environment whose validator library
errors out. -/
theorem validate_error_implies_invalid_witness :
    (Validate envValidatorErr pflags0 vflags0).valid = false :=
  validate_error_implies_invalid envValidatorErr pflags0 vflags0
    (VError.appError "internal validator error") rfl
